import Mathlib

/-!
Verification of the shading code in src/MVA_NPM_TP_4.py.

The file shallowly embeds the three shaders of the repository
(shade, specular_shade, micro_facette_shader) and their helpers
(D, G1, G, F) over the real numbers.  Per-pixel arithmetic is
modelled by functions on a Vec3 of reals; the numpy grid level is
modelled by lists of lists of pixels.  Fallible behaviour (the
uncaught Python exceptions raised on images with fewer than three
channels and on materials with unset specular fields) is modelled
with Except over an error type naming those two failure classes.
Floating point is modelled by exact reals; the places where numpy
would produce NaN or Inf (unguarded divisions by zero, powers of
degenerate bases) are captured by explicit definedness predicates.
-/

namespace NPM

/-- Triple of real components: a surface normal, a direction, or an RGB color. -/
structure Vec3 where
  x : ℝ
  y : ℝ
  z : ℝ

namespace Vec3

/-- Componentwise addition, as numpy array addition. -/
noncomputable def add (a b : Vec3) : Vec3 := ⟨a.x + b.x, a.y + b.y, a.z + b.z⟩

/-- Broadcast addition of a scalar to every channel, as the numpy
broadcast in f_d + f_s where f_d has three channels and f_s is a
per-pixel scalar. -/
noncomputable def adds (a : Vec3) (c : ℝ) : Vec3 := ⟨a.x + c, a.y + c, a.z + c⟩

/-- Multiplication of every channel by a scalar. -/
noncomputable def smul (c : ℝ) (a : Vec3) : Vec3 := ⟨c * a.x, c * a.y, c * a.z⟩

/-- Division of every channel by a scalar. -/
noncomputable def divs (a : Vec3) (c : ℝ) : Vec3 := ⟨a.x / c, a.y / c, a.z / c⟩

/-- Dot product: elementwise multiply then sum over the vector axis,
as (n*w).sum(-1) in the source. -/
noncomputable def dot (a b : Vec3) : ℝ := a.x * b.x + a.y * b.y + a.z * b.z

/-- Euclidean norm over the vector axis, as np.linalg.norm(v, axis=-1). -/
noncomputable def norm (a : Vec3) : ℝ := Real.sqrt (a.x ^ 2 + a.y ^ 2 + a.z ^ 2)

end Vec3

/-- Material record, from the Material class (src lines 17-31).
The albedo is an RGB triple; specular_coef and shininess default to
None in the source and are therefore optional here. -/
structure Material where
  albedo : Vec3
  diffuse_coef : ℝ
  specular_coef : Option ℝ
  shininess : Option ℝ

/-- Directional light source, from the LightSource class (src lines 34-46). -/
structure LightSource where
  direction : Vec3
  rgb : Vec3
  intensity : ℝ

/-- The fixed view direction out_dir = [1,1,1] hardcoded in
specular_shade (line 114) and micro_facette_shader (line 182). -/
def out_dir : Vec3 := ⟨1, 1, 1⟩

/-- Normal normalization with the zero guard of src lines 70-72:
n_norm = np.linalg.norm(n); n_norm[n_norm==0] = 1; n = n/n_norm. -/
noncomputable def normalizeGuard (v : Vec3) : Vec3 :=
  Vec3.divs v (if Vec3.norm v = 0 then 1 else Vec3.norm v)

/-- Light direction normalization of src lines 73-74 (also 122-123 and
190-191).  Note there is no zero guard here: a zero direction would be
a division by zero (NaN in numpy); over the reals Lean division by
zero yields zero, and the definedness predicates below record where the
numpy computation would degenerate. -/
noncomputable def lightDir (l : LightSource) : Vec3 :=
  Vec3.divs l.direction (Vec3.norm l.direction)

/-- Lambert BRDF f_d = material.diffuse_coef * material.albedo / np.pi
(src lines 77, 125 and 193). -/
noncomputable def f_d (m : Material) : Vec3 :=
  Vec3.divs (Vec3.smul m.diffuse_coef m.albedo) Real.pi

/-- The upper clamp out[out>255] = 255 (src lines 81, 130, 205), per channel. -/
noncomputable def clamp255 (v : ℝ) : ℝ := if v > 255 then 255 else v

/-- Upper clamp applied to every channel of a pixel. -/
noncomputable def clampV (v : Vec3) : Vec3 := ⟨clamp255 v.x, clamp255 v.y, clamp255 v.z⟩

/-- The background mask out[n_copy<5] = 0 (src lines 82, 131, 204).
The numpy boolean index n_copy<5 has the same height-width-channel
shape as out, so the assignment is per channel: channel c of a pixel
is zeroed exactly when raw channel c of that pixel is below 5. -/
noncomputable def maskChannel (rawc outc : ℝ) : ℝ := if rawc < 5 then 0 else outc

/-- Background mask applied per channel of one pixel. -/
noncomputable def maskV (raw v : Vec3) : Vec3 :=
  ⟨maskChannel raw.x v.x, maskChannel raw.y v.y, maskChannel raw.z v.z⟩

/-- Per-pixel diffuse shading before clamp and mask (src lines 67-80):
out = light_source.intensity * f_d * np.maximum((n*light_dir).sum(-1), 0). -/
noncomputable def shadePixelPre (m : Material) (l : LightSource) (raw : Vec3) : Vec3 :=
  Vec3.smul (l.intensity * max (Vec3.dot (normalizeGuard raw) (lightDir l)) 0) (f_d m)

/-- Per-pixel diffuse shading after the upper clamp (line 81) and the
background mask (line 82), in that order.  The final astype(np.uint8)
truncation of line 83 is not modelled; the claims are stated about the
post-clamp pre-truncation values. -/
noncomputable def shadePixel (m : Material) (l : LightSource) (raw : Vec3) : Vec3 :=
  maskV raw (clampV (shadePixelPre m l raw))

/-- Half vector of specular_shade, src line 126:
w_h = (light_dir + out_dir) / (2. * np.linalg.norm(light_dir + out_dir)).
The divisor is twice the norm, so this vector has length one half, not one. -/
noncomputable def w_h_spec (l : LightSource) : Vec3 :=
  Vec3.divs (Vec3.add (lightDir l) out_dir)
    (2 * Vec3.norm (Vec3.add (lightDir l) out_dir))

/-- Modelled from the spec: the half-vector w_h = normalize(w_i + w_o),
the unit-length normalization of the sum of the unit light direction
and the view direction, as the spec describes blinnPhongSpecular.
Kept separate from w_h_spec, which embeds the source line 126, so the
two can be compared. -/
noncomputable def unitHalf (l : LightSource) : Vec3 :=
  Vec3.divs (Vec3.add (lightDir l) out_dir) (Vec3.norm (Vec3.add (lightDir l) out_dir))

/-- Per-pixel Blinn-Phong shading before clamp and mask (src lines 112-129),
with the optional material fields already extracted to the reals sc and sh:
f_s = sc * ((n*w_h).sum(-1)) ** sh and
out = intensity * (f_d + f_s) * np.maximum((n*light_dir).sum(-1), 0).
The numpy float power is modelled by Real.rpow, which agrees with
np.power on nonnegative bases; powDefined below records where np.power
would produce NaN or Inf. -/
noncomputable def specularPixelPre (m : Material) (sc sh : ℝ) (l : LightSource)
    (raw : Vec3) : Vec3 :=
  Vec3.smul (l.intensity * max (Vec3.dot (normalizeGuard raw) (lightDir l)) 0)
    (Vec3.adds (f_d m) (sc * (Vec3.dot (normalizeGuard raw) (w_h_spec l)) ^ sh))

/-- Per-pixel Blinn-Phong shading after clamp (line 130) then mask (line 131). -/
noncomputable def specularPixel (m : Material) (sc sh : ℝ) (l : LightSource)
    (raw : Vec3) : Vec3 :=
  maskV raw (clampV (specularPixelPre m sc sh l raw))

/-- Microfacet distribution term, src lines 163-166:
D = alpha**2 / (np.pi * (1 + prod**2 * (alpha**2 - 1))**2). -/
noncomputable def D (alpha : ℝ) (n w_h : Vec3) : ℝ :=
  alpha ^ 2 / (Real.pi * (1 + (Vec3.dot n w_h) ^ 2 * (alpha ^ 2 - 1)) ^ 2)

/-- Microfacet geometry term, src lines 168-171:
k = alpha * np.sqrt(2/np.pi); G1 = prod / (prod * (1-k) + k).
Note the denominator has no zero guard. -/
noncomputable def G1 (alpha : ℝ) (n w : Vec3) : ℝ :=
  Vec3.dot n w /
    (Vec3.dot n w * (1 - alpha * Real.sqrt (2 / Real.pi)) + alpha * Real.sqrt (2 / Real.pi))

/-- Combined geometry term, src lines 173-174. -/
noncomputable def G (alpha : ℝ) (w_i w_o n : Vec3) : ℝ := G1 alpha n w_i * G1 alpha n w_o

/-- Fresnel term, src lines 176-178:
F = f_0 + (1 - f_0) * np.power(2, (-5.55473*prod - 6.98316)*prod). -/
noncomputable def F (n w_h : Vec3) (f_0 : ℝ) : ℝ :=
  f_0 + (1 - f_0) *
    (2 : ℝ) ^ ((-5.55473 * Vec3.dot n w_h - 6.98316) * Vec3.dot n w_h)

/-- Half vector of micro_facette_shader, src line 195: here the divisor
is the norm itself, so this is the unit half vector. -/
noncomputable def w_h_micro (l : LightSource) : Vec3 :=
  Vec3.divs (Vec3.add (lightDir l) out_dir) (Vec3.norm (Vec3.add (lightDir l) out_dir))

/-- The substitution prod[prod==0] = 1 of src lines 199-200, applied to
the two dot products that enter the microfacet specular denominator. -/
noncomputable def prodSub (p : ℝ) : ℝ := if p = 0 then 1 else p

/-- Per-pixel microfacet shading before mask and clamp (src lines 180-203):
f_s = D * F * G / (4 * prod_i * prod_o) with prod_i, prod_o guarded by
prodSub, and out = intensity * (f_d + f_s) * np.maximum(prod_i, 0)
where the cosine factor recomputes the unsubstituted dot product. -/
noncomputable def microPixelPre (m : Material) (alpha f_0 : ℝ) (l : LightSource)
    (raw : Vec3) : Vec3 :=
  let n := normalizeGuard raw
  let wi := lightDir l
  let wh := w_h_micro l
  let fs := D alpha n wh * F n wh f_0 * G alpha wi out_dir n /
    (4 * prodSub (Vec3.dot n wi) * prodSub (Vec3.dot n out_dir))
  Vec3.smul (l.intensity * max (Vec3.dot n wi) 0) (Vec3.adds (f_d m) fs)

/-- Per-pixel microfacet shading after mask (line 204) then clamp (line 205);
note the order is reversed relative to shade and specular_shade. -/
noncomputable def microPixel (m : Material) (alpha f_0 : ℝ) (l : LightSource)
    (raw : Vec3) : Vec3 :=
  clampV (maskV raw (microPixelPre m alpha f_0 l raw))

/-- One pixel of the image source: the list of its channel values.
Reading np.array(normalImage)[:,:,:3] (src lines 67, 116, 184) takes the
first three channels; a pixel with fewer than three channels makes the
source computation raise an uncaught IndexError or broadcast ValueError
before any output grid is produced, modelled here by none. -/
def pixelToVec3 : List ℝ → Option Vec3
  | a :: b :: c :: _ => some ⟨a, b, c⟩
  | _ => none

/-- Converts one row of the image, failing if any pixel fails. -/
def rowToVec3 : List (List ℝ) → Option (List Vec3)
  | [] => some []
  | px :: rest =>
    match pixelToVec3 px with
    | none => none
    | some v =>
      match rowToVec3 rest with
      | none => none
      | some vs => some (v :: vs)

/-- Converts the whole image grid to raw normal vectors, failing if any
pixel has fewer than three channels. -/
def toNormals : List (List (List ℝ)) → Option (List (List Vec3))
  | [] => some []
  | row :: rest =>
    match rowToVec3 row with
    | none => none
    | some r =>
      match toNormals rest with
      | none => none
      | some rs => some (r :: rs)

/-- The two failure classes of the shaders.  The source does not define
exception types of its own: an image with fewer than three channels
aborts with an uncaught IndexError or broadcast ValueError, and a
specular material with unset fields aborts with an uncaught TypeError
from arithmetic on None.  These constructors name those two distinct
failure classes using the vocabulary of the spec. -/
inductive ShadeError where
  | invalidImageFormat
  | missingMaterialParameter
deriving DecidableEq

/-- The diffuse shader shade(normalImage, material, light_source)
(src lines 55-84) at the grid level. -/
noncomputable def shade (img : List (List (List ℝ))) (m : Material) (l : LightSource) :
    Except ShadeError (List (List Vec3)) :=
  match toNormals img with
  | none => Except.error ShadeError.invalidImageFormat
  | some g => Except.ok (g.map (fun row => row.map (fun raw => shadePixel m l raw)))

/-- The Blinn-Phong shader specular_shade(normalImage, material, light_source)
(src lines 112-133) at the grid level.  The image is read (line 116) before
the material fields are used (line 127), so a bad image aborts first; when
specular_coef or shininess is None, line 127 aborts with the uncaught
TypeError modelled by missingMaterialParameter. -/
noncomputable def specular_shade (img : List (List (List ℝ))) (m : Material)
    (l : LightSource) : Except ShadeError (List (List Vec3)) :=
  match toNormals img with
  | none => Except.error ShadeError.invalidImageFormat
  | some g =>
    match m.specular_coef, m.shininess with
    | some sc, some sh =>
        Except.ok (g.map (fun row => row.map (fun raw => specularPixel m sc sh l raw)))
    | _, _ => Except.error ShadeError.missingMaterialParameter

/-- The microfacet shader micro_facette_shader(normalImage, material, alpha,
f_0, light_source) (src lines 180-207) at the grid level. -/
noncomputable def micro_facette_shader (img : List (List (List ℝ))) (m : Material)
    (alpha f_0 : ℝ) (l : LightSource) : Except ShadeError (List (List Vec3)) :=
  match toNormals img with
  | none => Except.error ShadeError.invalidImageFormat
  | some g => Except.ok (g.map (fun row => row.map (fun raw => microPixel m alpha f_0 l raw)))

/-- Finiteness condition for np.power(b, e): the numpy float power is
finite unless the base is zero with a negative exponent (Inf) or the
base is negative with a non-integral exponent (NaN). -/
def powDefined (b e : ℝ) : Prop :=
  0 < b ∨ (b = 0 ∧ 0 ≤ e) ∨ (b < 0 ∧ ∃ k : ℤ, e = (k : ℝ))

/-- Division sites of the diffuse shader that have no zero guard: only
the light direction normalization of line 74 (the normal norm is guarded
at lines 70-71 and np.pi is never zero).  The shade computation is free
of NaN and Inf exactly when this predicate holds. -/
def shadeDefined (l : LightSource) : Prop := Vec3.norm l.direction ≠ 0

/-- Unguarded degeneracy sites of the Blinn-Phong shader: the light
direction norm (line 123), the half-vector norm (line 126) and the
np.power call of line 127. -/
def specularDefined (sh : ℝ) (l : LightSource) (raw : Vec3) : Prop :=
  Vec3.norm l.direction ≠ 0 ∧
  2 * Vec3.norm (Vec3.add (lightDir l) out_dir) ≠ 0 ∧
  powDefined (Vec3.dot (normalizeGuard raw) (w_h_spec l)) sh

/-- Unguarded degeneracy sites of the microfacet shader: the light
direction norm (line 191), the half-vector norm (line 195), the
distribution denominator of line 166, and the two geometry denominators
of line 171, which the source does not guard (the prod==0 substitution
of lines 199-200 applies only to the outer denominator of line 201). -/
def microDefined (alpha : ℝ) (l : LightSource) (raw : Vec3) : Prop :=
  Vec3.norm l.direction ≠ 0 ∧
  Vec3.norm (Vec3.add (lightDir l) out_dir) ≠ 0 ∧
  Real.pi * (1 + (Vec3.dot (normalizeGuard raw) (w_h_micro l)) ^ 2 * (alpha ^ 2 - 1)) ^ 2 ≠ 0 ∧
  Vec3.dot (normalizeGuard raw) (lightDir l) * (1 - alpha * Real.sqrt (2 / Real.pi))
      + alpha * Real.sqrt (2 / Real.pi) ≠ 0 ∧
  Vec3.dot (normalizeGuard raw) out_dir * (1 - alpha * Real.sqrt (2 / Real.pi))
      + alpha * Real.sqrt (2 / Real.pi) ≠ 0

/-- A pixel with fewer than three channels fails to convert. -/
theorem pixelToVec3_short (px : List ℝ) (h : px.length < 3) : pixelToVec3 px = none := by
  rcases px with _ | ⟨a, _ | ⟨b, _ | ⟨c, rest⟩⟩⟩
  · rfl
  · rfl
  · rfl
  · simp at h
    omega

/-- A row containing a failing pixel fails to convert. -/
theorem rowToVec3_none {row : List (List ℝ)} {px : List ℝ} (hpx : px ∈ row)
    (h : pixelToVec3 px = none) : rowToVec3 row = none := by
  induction row with
  | nil => cases hpx
  | cons p rest ih =>
    rcases List.mem_cons.mp hpx with rfl | hmem
    · simp [rowToVec3, h]
    · cases hv : pixelToVec3 p <;> simp [rowToVec3, hv, ih hmem]

/-- An image containing a failing row fails to convert. -/
theorem toNormals_none {img : List (List (List ℝ))} {row : List (List ℝ)}
    (hrow : row ∈ img) (h : rowToVec3 row = none) : toNormals img = none := by
  induction img with
  | nil => cases hrow
  | cons r rest ih =>
    rcases List.mem_cons.mp hrow with rfl | hmem
    · simp [toNormals, h]
    · cases hv : rowToVec3 r <;> simp [toNormals, hv, ih hmem]

/-- C7: an image source providing a pixel with fewer than three channels
makes every one of the three shading modes fail with the invalid image
format failure, before any output grid is produced. -/
theorem c7_invalid_format (img : List (List (List ℝ))) (m : Material) (l : LightSource)
    (alpha f_0 : ℝ) (row : List (List ℝ)) (px : List ℝ)
    (hrow : row ∈ img) (hpx : px ∈ row) (hlen : px.length < 3) :
    shade img m l = Except.error ShadeError.invalidImageFormat ∧
    specular_shade img m l = Except.error ShadeError.invalidImageFormat ∧
    micro_facette_shader img m alpha f_0 l = Except.error ShadeError.invalidImageFormat := by
  have h1 : toNormals img = none :=
    toNormals_none hrow (rowToVec3_none hpx (pixelToVec3_short px hlen))
  refine ⟨?_, ?_, ?_⟩ <;> simp [shade, specular_shade, micro_facette_shader, h1]

/-- C7 witness: a one-pixel image with only two channels is rejected by
all three shaders. -/
theorem c7_invalid_format_witness :
    shade [[[128, 128]]] ⟨⟨0, 191, 255⟩, 4.5, none, none⟩ ⟨⟨1, 400, -125⟩, ⟨255, 255, 255⟩, 1.413⟩
        = Except.error ShadeError.invalidImageFormat ∧
    specular_shade [[[128, 128]]] ⟨⟨0, 191, 255⟩, 4.5, none, none⟩
        ⟨⟨1, 400, -125⟩, ⟨255, 255, 255⟩, 1.413⟩
        = Except.error ShadeError.invalidImageFormat ∧
    micro_facette_shader [[[128, 128]]] ⟨⟨0, 191, 255⟩, 4.5, none, none⟩ 2.965 70
        ⟨⟨1, 400, -125⟩, ⟨255, 255, 255⟩, 1.413⟩
        = Except.error ShadeError.invalidImageFormat :=
  c7_invalid_format [[[128, 128]]] ⟨⟨0, 191, 255⟩, 4.5, none, none⟩
    ⟨⟨1, 400, -125⟩, ⟨255, 255, 255⟩, 1.413⟩ 2.965 70 [[128, 128]] [128, 128]
    (by simp) (by simp) (by simp)

/-- C6: on any well-formed normal image, invoking the Blinn-Phong mode with
a material whose specular_coef or shininess is unset fails with the missing
material parameter failure. -/
theorem c6_missing_material (img : List (List (List ℝ))) (g : List (List Vec3))
    (m : Material) (l : LightSource) (himg : toNormals img = some g)
    (h : m.specular_coef = none ∨ m.shininess = none) :
    specular_shade img m l = Except.error ShadeError.missingMaterialParameter := by
  unfold specular_shade
  rw [himg]
  rcases hsc : m.specular_coef with _ | sc <;> rcases hsh : m.shininess with _ | sh
  · rfl
  · rfl
  · rfl
  · rw [hsc, hsh] at h
    rcases h with h | h <;> exact absurd h (by simp)

/-- C6 witness: a material with diffuse parameters only is rejected by the
Blinn-Phong shader on a well-formed one-pixel image. -/
theorem c6_missing_material_witness :
    specular_shade [[[255, 255, 255]]] ⟨⟨0, 191, 255⟩, 4.5, none, none⟩
        ⟨⟨1, 400, -125⟩, ⟨255, 255, 255⟩, 1.413⟩
      = Except.error ShadeError.missingMaterialParameter :=
  c6_missing_material [[[255, 255, 255]]] [[⟨255, 255, 255⟩]]
    ⟨⟨0, 191, 255⟩, 4.5, none, none⟩ ⟨⟨1, 400, -125⟩, ⟨255, 255, 255⟩, 1.413⟩
    rfl (Or.inl rfl)

/-- C10: the microfacet shader reads only albedo and diffuse_coef from the
material: two materials agreeing on those fields produce identical output
grids for every image, alpha, f_0 and light source, whatever their
specular_coef and shininess. -/
theorem c10_micro_ignores_specular (img : List (List (List ℝ))) (alpha f_0 : ℝ)
    (l : LightSource) (m₁ m₂ : Material)
    (ha : m₁.albedo = m₂.albedo) (hd : m₁.diffuse_coef = m₂.diffuse_coef) :
    micro_facette_shader img m₁ alpha f_0 l = micro_facette_shader img m₂ alpha f_0 l := by
  have hfd : f_d m₁ = f_d m₂ := by rw [f_d, f_d, ha, hd]
  have hpix : ∀ raw, microPixel m₁ alpha f_0 l raw = microPixel m₂ alpha f_0 l raw := by
    intro raw
    unfold microPixel microPixelPre
    rw [hfd]
  unfold micro_facette_shader
  cases htn : toNormals img
  · rfl
  · simp only [hpix]

/-- C10 witness: two materials sharing albedo and diffuse coefficient but
with different specular fields give the same microfacet output on a
concrete image. -/
theorem c10_micro_ignores_specular_witness :
    micro_facette_shader [[[255, 255, 255]]] ⟨⟨0, 191, 255⟩, 4.5, none, none⟩ 2.965 70
        ⟨⟨1, 400, -125⟩, ⟨255, 255, 255⟩, 1.413⟩
      = micro_facette_shader [[[255, 255, 255]]] ⟨⟨0, 191, 255⟩, 4.5, some 255, some 0.7⟩
        2.965 70 ⟨⟨1, 400, -125⟩, ⟨255, 255, 255⟩, 1.413⟩ :=
  c10_micro_ignores_specular [[[255, 255, 255]]] 2.965 70
    ⟨⟨1, 400, -125⟩, ⟨255, 255, 255⟩, 1.413⟩
    ⟨⟨0, 191, 255⟩, 4.5, none, none⟩ ⟨⟨0, 191, 255⟩, 4.5, some 255, some 0.7⟩ rfl rfl

/-- C8: in the normal normalization step, a raw pixel whose Euclidean norm
is exactly zero has the norm substituted with 1, making the normalized
normal the zero vector; a pixel with nonzero norm is divided by its
true norm. -/
theorem c8_normalize_guard (v : Vec3) :
    (Vec3.norm v = 0 → normalizeGuard v = ⟨0, 0, 0⟩) ∧
    (Vec3.norm v ≠ 0 → normalizeGuard v = Vec3.divs v (Vec3.norm v)) := by
  constructor
  · intro h
    have hsum : v.x ^ 2 + v.y ^ 2 + v.z ^ 2 ≤ 0 := Real.sqrt_eq_zero'.mp h
    have hx : v.x = 0 := by nlinarith [sq_nonneg v.x, sq_nonneg v.y, sq_nonneg v.z]
    have hy : v.y = 0 := by nlinarith [sq_nonneg v.x, sq_nonneg v.y, sq_nonneg v.z]
    have hz : v.z = 0 := by nlinarith [sq_nonneg v.x, sq_nonneg v.y, sq_nonneg v.z]
    simp [normalizeGuard, Vec3.divs, h, hx, hy, hz]
  · intro h
    simp [normalizeGuard, Vec3.divs, h]

/-- C8 witness: the guard at the zero pixel yields the zero vector, and a
pixel of norm 5 is divided by its true norm. -/
theorem c8_normalize_guard_witness :
    normalizeGuard ⟨0, 0, 0⟩ = ⟨0, 0, 0⟩ ∧
    normalizeGuard ⟨0, 3, 4⟩ = Vec3.divs ⟨0, 3, 4⟩ (Vec3.norm ⟨0, 3, 4⟩) := by
  constructor
  · exact (c8_normalize_guard ⟨0, 0, 0⟩).1 (by simp [Vec3.norm])
  · refine (c8_normalize_guard ⟨0, 3, 4⟩).2 ?_
    have h5 : Vec3.norm ⟨0, 3, 4⟩ = 5 := by
      simp only [Vec3.norm]
      rw [show (0 : ℝ) ^ 2 + 3 ^ 2 + 4 ^ 2 = 5 ^ 2 by norm_num]
      exact Real.sqrt_sq (by norm_num)
    rw [h5]
    norm_num

/-- C9: the unclamped diffuse output is linear in diffuse_coef: doubling
the diffuse coefficient, with the normal grid and the light source
fixed, exactly doubles every channel of the unclamped output. -/
theorem c9_diffuse_linear (m : Material) (l : LightSource) (raw : Vec3) :
    shadePixelPre (Material.mk m.albedo (2 * m.diffuse_coef) m.specular_coef m.shininess)
        l raw
      = Vec3.smul 2 (shadePixelPre m l raw) := by
  simp only [shadePixelPre, f_d, Vec3.smul, Vec3.divs, Vec3.mk.injEq]
  refine ⟨by ring, by ring, by ring⟩

/-- The norm of a vector is nonnegative. -/
theorem norm_nonneg (v : Vec3) : 0 ≤ Vec3.norm v := Real.sqrt_nonneg _

/-- The norm of a vector vanishes exactly on the zero vector. -/
theorem norm_eq_zero_iff (v : Vec3) : Vec3.norm v = 0 ↔ v = ⟨0, 0, 0⟩ := by
  constructor
  · intro h
    have hsum : v.x ^ 2 + v.y ^ 2 + v.z ^ 2 ≤ 0 := Real.sqrt_eq_zero'.mp h
    have hx : v.x = 0 := by nlinarith [sq_nonneg v.x, sq_nonneg v.y, sq_nonneg v.z]
    have hy : v.y = 0 := by nlinarith [sq_nonneg v.x, sq_nonneg v.y, sq_nonneg v.z]
    have hz : v.z = 0 := by nlinarith [sq_nonneg v.x, sq_nonneg v.y, sq_nonneg v.z]
    cases v
    simp_all
  · intro h
    rw [h]
    simp [Vec3.norm]

/-- Norm of a vector with three equal nonnegative components. -/
theorem norm_diag (c : ℝ) (hc : 0 ≤ c) : Vec3.norm ⟨c, c, c⟩ = c * Real.sqrt 3 := by
  simp only [Vec3.norm]
  rw [show c ^ 2 + c ^ 2 + c ^ 2 = 3 * c ^ 2 by ring,
    Real.sqrt_mul (by norm_num : (0 : ℝ) ≤ 3), Real.sqrt_sq hc]
  ring

/-- Guarded normalization of a vector with three equal positive components. -/
theorem normalizeGuard_diag (c : ℝ) (hc : 0 < c) :
    normalizeGuard ⟨c, c, c⟩ = ⟨1 / Real.sqrt 3, 1 / Real.sqrt 3, 1 / Real.sqrt 3⟩ := by
  have hs0 : (0 : ℝ) < Real.sqrt 3 := Real.sqrt_pos.mpr (by norm_num)
  rw [normalizeGuard, norm_diag c hc.le, if_neg (by positivity)]
  simp only [Vec3.divs, Vec3.mk.injEq]
  have h1 : c / (c * Real.sqrt 3) = 1 / Real.sqrt 3 := by
    rw [← div_div, div_self hc.ne']
  exact ⟨h1, h1, h1⟩

/-- Scaling a vector by a nonnegative scalar scales its norm. -/
theorem norm_divs (v : Vec3) (c : ℝ) (hc : 0 ≤ c) :
    Vec3.norm (Vec3.divs v c) = Vec3.norm v / c := by
  simp only [Vec3.norm, Vec3.divs]
  rw [div_pow, div_pow, div_pow, div_add_div_same, div_add_div_same,
    Real.sqrt_div (by positivity) (c ^ 2), Real.sqrt_sq hc]

/-- The guarded normalization of a pixel with positive norm divides by the
true norm and yields a unit vector. -/
theorem normalizeGuard_of_ne (v : Vec3) (h : Vec3.norm v ≠ 0) :
    normalizeGuard v = Vec3.divs v (Vec3.norm v) ∧ Vec3.norm (normalizeGuard v) = 1 := by
  have heq : normalizeGuard v = Vec3.divs v (Vec3.norm v) := by
    rw [normalizeGuard, if_neg h]
  refine ⟨heq, ?_⟩
  rw [heq, norm_divs v (Vec3.norm v) (Real.sqrt_nonneg _), div_self h]

/-- C1 counterexample: a pixel whose first raw channel is 0 (below the
threshold 5) still gets a nonzero output in its third channel from the
diffuse shader, so the output pixel is not (0,0,0): the mask of line 82
is per channel, not per pixel. -/
theorem c1_counterexample :
    (Vec3.x ⟨0, 0, 255⟩ < 5) ∧
    shadePixel ⟨⟨255, 255, 255⟩, 1, none, none⟩ ⟨⟨0, 0, 1⟩, ⟨255, 255, 255⟩, 1⟩ ⟨0, 0, 255⟩
      ≠ ⟨0, 0, 0⟩ := by
  have hpi : (0 : ℝ) < Real.pi := Real.pi_pos
  have hpi1 : (1 : ℝ) ≤ Real.pi := by nlinarith [Real.pi_gt_three]
  refine ⟨by norm_num, ?_⟩
  have hnraw : Vec3.norm ⟨0, 0, 255⟩ = 255 := by
    simp only [Vec3.norm]
    rw [show (0 : ℝ) ^ 2 + 0 ^ 2 + 255 ^ 2 = 255 ^ 2 by norm_num]
    exact Real.sqrt_sq (by norm_num)
  have hn : normalizeGuard ⟨0, 0, 255⟩ = ⟨0, 0, 1⟩ := by
    rw [normalizeGuard, hnraw, if_neg (by norm_num)]
    simp only [Vec3.divs, Vec3.mk.injEq]
    norm_num
  have hnl : Vec3.norm ⟨0, 0, 1⟩ = 1 := by
    simp only [Vec3.norm]
    rw [show (0 : ℝ) ^ 2 + 0 ^ 2 + 1 ^ 2 = 1 by norm_num]
    exact Real.sqrt_one
  have hld : lightDir ⟨⟨0, 0, 1⟩, ⟨255, 255, 255⟩, 1⟩ = ⟨0, 0, 1⟩ := by
    show Vec3.divs ⟨0, 0, 1⟩ (Vec3.norm ⟨0, 0, 1⟩) = _
    rw [hnl]
    simp only [Vec3.divs, Vec3.mk.injEq]
    norm_num
  have hdot : Vec3.dot ⟨0, 0, 1⟩ ⟨0, 0, 1⟩ = 1 := by
    simp only [Vec3.dot]
    norm_num
  have hpre : shadePixelPre ⟨⟨255, 255, 255⟩, 1, none, none⟩ ⟨⟨0, 0, 1⟩, ⟨255, 255, 255⟩, 1⟩
      ⟨0, 0, 255⟩ = ⟨255 / Real.pi, 255 / Real.pi, 255 / Real.pi⟩ := by
    rw [shadePixelPre, hn, hld, hdot]
    simp only [f_d, Vec3.smul, Vec3.divs, Vec3.mk.injEq]
    norm_num
  have hle : 255 / Real.pi ≤ 255 := by
    apply div_le_self (by norm_num) hpi1
  have hz : (shadePixel ⟨⟨255, 255, 255⟩, 1, none, none⟩ ⟨⟨0, 0, 1⟩, ⟨255, 255, 255⟩, 1⟩
      ⟨0, 0, 255⟩).z = 255 / Real.pi := by
    rw [shadePixel, hpre]
    simp only [clampV, maskV, clamp255, maskChannel]
    rw [if_neg (by linarith : ¬ (255 : ℝ) / Real.pi > 255)]
    rw [if_neg (by norm_num : ¬ (255 : ℝ) < 5)]
  intro heq
  rw [heq] at hz
  have : (0 : ℝ) < 255 / Real.pi := by positivity
  simp at hz
  linarith [hz ▸ this]

/-- C1 as the code has it: the background mask is applied per channel.
For each of the three shaders, any output channel whose raw channel is
below 5 is forced to 0 (for shade and specular_shade the mask runs after
the clamp; for micro_facette_shader the mask runs first and the clamp
keeps the 0). -/
theorem c1_per_channel_mask (m : Material) (sc sh alpha f_0 : ℝ) (l : LightSource)
    (raw : Vec3) :
    (raw.x < 5 → (shadePixel m l raw).x = 0 ∧ (specularPixel m sc sh l raw).x = 0 ∧
      (microPixel m alpha f_0 l raw).x = 0) ∧
    (raw.y < 5 → (shadePixel m l raw).y = 0 ∧ (specularPixel m sc sh l raw).y = 0 ∧
      (microPixel m alpha f_0 l raw).y = 0) ∧
    (raw.z < 5 → (shadePixel m l raw).z = 0 ∧ (specularPixel m sc sh l raw).z = 0 ∧
      (microPixel m alpha f_0 l raw).z = 0) := by
  refine ⟨fun h => ?_, fun h => ?_, fun h => ?_⟩ <;>
    refine ⟨?_, ?_, ?_⟩ <;>
      simp [shadePixel, specularPixel, microPixel, maskV, clampV, maskChannel, clamp255, h]

/-- C1 witness: at a pixel with first raw channel 0, all three shaders
return 0 in the first output channel. -/
theorem c1_per_channel_mask_witness :
    (shadePixel ⟨⟨0, 191, 255⟩, 4.5, none, none⟩ ⟨⟨1, 400, -125⟩, ⟨255, 255, 255⟩, 1.413⟩
      ⟨0, 200, 255⟩).x = 0 ∧
    (specularPixel ⟨⟨0, 191, 255⟩, 4.5, none, none⟩ 255 0.7
      ⟨⟨1, 400, -125⟩, ⟨255, 255, 255⟩, 1.413⟩ ⟨0, 200, 255⟩).x = 0 ∧
    (microPixel ⟨⟨0, 191, 255⟩, 4.5, none, none⟩ 2.965 70
      ⟨⟨1, 400, -125⟩, ⟨255, 255, 255⟩, 1.413⟩ ⟨0, 200, 255⟩).x = 0 :=
  (c1_per_channel_mask ⟨⟨0, 191, 255⟩, 4.5, none, none⟩ 255 0.7 2.965 70
    ⟨⟨1, 400, -125⟩, ⟨255, 255, 255⟩, 1.413⟩ ⟨0, 200, 255⟩).1 (by norm_num)

/-- C4 counterexample: for the light direction (0,0,1) the half vector
computed by specular_shade differs from the unit normalization of
w_i + w_o: the source divides by twice the norm. -/
theorem c4_counterexample :
    w_h_spec ⟨⟨0, 0, 1⟩, ⟨255, 255, 255⟩, 1⟩ ≠ unitHalf ⟨⟨0, 0, 1⟩, ⟨255, 255, 255⟩, 1⟩ := by
  have hnl : Vec3.norm ⟨0, 0, 1⟩ = 1 := by
    simp only [Vec3.norm]
    rw [show (0 : ℝ) ^ 2 + 0 ^ 2 + 1 ^ 2 = 1 by norm_num]
    exact Real.sqrt_one
  have hld : lightDir ⟨⟨0, 0, 1⟩, ⟨255, 255, 255⟩, 1⟩ = ⟨0, 0, 1⟩ := by
    show Vec3.divs ⟨0, 0, 1⟩ (Vec3.norm ⟨0, 0, 1⟩) = _
    rw [hnl]
    simp only [Vec3.divs, Vec3.mk.injEq]
    norm_num
  have hadd : Vec3.add ⟨0, 0, 1⟩ out_dir = ⟨1, 1, 2⟩ := by
    simp only [Vec3.add, out_dir]
    norm_num
  have hn6 : Vec3.norm ⟨1, 1, 2⟩ = Real.sqrt 6 := by
    simp only [Vec3.norm]
    norm_num
  have h6 : (0 : ℝ) < Real.sqrt 6 := Real.sqrt_pos.mpr (by norm_num)
  intro heq
  have hz := congrArg Vec3.z heq
  rw [w_h_spec, unitHalf, hld, hadd, hn6] at hz
  simp only [Vec3.divs] at hz
  rw [div_eq_div_iff (by positivity) (by positivity)] at hz
  nlinarith [h6]

/-- C4 as the code has it: the half vector of specular_shade is one half
of the unit normalization of w_i + w_o, and the specular term is
specular_coef times the dot product with that half-length vector raised
to the shininess. -/
theorem c4_half_vector (m : Material) (sc sh : ℝ) (l : LightSource) (raw : Vec3) :
    w_h_spec l = Vec3.smul (1 / 2) (unitHalf l) ∧
    specularPixelPre m sc sh l raw =
      Vec3.smul (l.intensity * max (Vec3.dot (normalizeGuard raw) (lightDir l)) 0)
        (Vec3.adds (f_d m)
          (sc * (Vec3.dot (normalizeGuard raw) (Vec3.smul (1 / 2) (unitHalf l))) ^ sh)) := by
  have h1 : w_h_spec l = Vec3.smul (1 / 2) (unitHalf l) := by
    simp only [w_h_spec, unitHalf, Vec3.smul, Vec3.divs, Vec3.mk.injEq]
    refine ⟨?_, ?_, ?_⟩ <;> ring
  exact ⟨h1, by rw [specularPixelPre, h1]⟩

/-- C5: on every pixel passing the background mask (all raw channels at
least 5) and for a nonzero light direction, the normalized normal and
light direction are unit vectors and the pre-clamp diffuse output is
intensity times f_d times the clamped cosine, with f_d the Lambertian
coefficient diffuse_coef times albedo over pi. -/
theorem c5_diffuse_formula (m : Material) (l : LightSource) (raw : Vec3)
    (hdir : Vec3.norm l.direction ≠ 0)
    (hx : 5 ≤ raw.x) (hy : 5 ≤ raw.y) (hz : 5 ≤ raw.z) :
    Vec3.norm (normalizeGuard raw) = 1 ∧
    Vec3.norm (lightDir l) = 1 ∧
    shadePixelPre m l raw =
      Vec3.smul (l.intensity *
          max (Vec3.dot (Vec3.divs raw (Vec3.norm raw))
            (Vec3.divs l.direction (Vec3.norm l.direction))) 0)
        (Vec3.divs (Vec3.smul m.diffuse_coef m.albedo) Real.pi) := by
  have hnz : Vec3.norm raw ≠ 0 := by
    intro h
    rw [norm_eq_zero_iff] at h
    have := congrArg Vec3.x h
    simp at this
    linarith
  obtain ⟨heq, hunit⟩ := normalizeGuard_of_ne raw hnz
  refine ⟨hunit, ?_, ?_⟩
  · rw [lightDir, norm_divs l.direction (Vec3.norm l.direction) (norm_nonneg _),
      div_self hdir]
  · rw [shadePixelPre, heq, lightDir, f_d]

/-- C5 witness: the formula at the flat pixel (128,128,255) under a
vertical light. -/
theorem c5_diffuse_formula_witness :
    Vec3.norm (normalizeGuard ⟨128, 128, 255⟩) = 1 ∧
    Vec3.norm (lightDir ⟨⟨0, 0, 1⟩, ⟨255, 255, 255⟩, 1⟩) = 1 ∧
    shadePixelPre ⟨⟨255, 255, 255⟩, 1, none, none⟩ ⟨⟨0, 0, 1⟩, ⟨255, 255, 255⟩, 1⟩
        ⟨128, 128, 255⟩ =
      Vec3.smul ((1 : ℝ) *
          max (Vec3.dot (Vec3.divs ⟨128, 128, 255⟩ (Vec3.norm ⟨128, 128, 255⟩))
            (Vec3.divs ⟨0, 0, 1⟩ (Vec3.norm ⟨0, 0, 1⟩))) 0)
        (Vec3.divs (Vec3.smul 1 ⟨255, 255, 255⟩) Real.pi) :=
  c5_diffuse_formula ⟨⟨255, 255, 255⟩, 1, none, none⟩ ⟨⟨0, 0, 1⟩, ⟨255, 255, 255⟩, 1⟩
    ⟨128, 128, 255⟩
    (by
      have hnl : Vec3.norm ⟨0, 0, 1⟩ = 1 := by
        simp only [Vec3.norm]
        rw [show (0 : ℝ) ^ 2 + 0 ^ 2 + 1 ^ 2 = 1 by norm_num]
        exact Real.sqrt_one
      rw [hnl]
      norm_num)
    (by norm_num) (by norm_num) (by norm_num)

/-- Components of the guarded normalization of a componentwise nonnegative
vector are nonnegative. -/
theorem guard_nonneg (v : Vec3) (hx : 0 ≤ v.x) (hy : 0 ≤ v.y) (hz : 0 ≤ v.z) :
    0 ≤ (normalizeGuard v).x ∧ 0 ≤ (normalizeGuard v).y ∧ 0 ≤ (normalizeGuard v).z := by
  have hc : 0 ≤ (if Vec3.norm v = 0 then 1 else Vec3.norm v) := by
    split
    · norm_num
    · exact norm_nonneg v
  simp only [normalizeGuard, Vec3.divs]
  exact ⟨div_nonneg hx hc, div_nonneg hy hc, div_nonneg hz hc⟩

/-- The guarded normalization has norm at most one. -/
theorem normGuard_le_one (v : Vec3) : Vec3.norm (normalizeGuard v) ≤ 1 := by
  by_cases h : Vec3.norm v = 0
  · have hv := (norm_eq_zero_iff v).mp h
    rw [hv] at h ⊢
    rw [normalizeGuard, if_pos h]
    simp [Vec3.divs, Vec3.norm]
  · rw [(normalizeGuard_of_ne v h).2]

/-- Every component of a vector is at most the norm in absolute value. -/
theorem abs_comp_le_norm (v : Vec3) :
    |v.x| ≤ Vec3.norm v ∧ |v.y| ≤ Vec3.norm v ∧ |v.z| ≤ Vec3.norm v := by
  refine ⟨?_, ?_, ?_⟩ <;>
  · rw [← Real.sqrt_sq_eq_abs]
    apply Real.sqrt_le_sqrt
    nlinarith [sq_nonneg v.x, sq_nonneg v.y, sq_nonneg v.z]

/-- Components of the normalized light direction are at least -1. -/
theorem lightDir_ge_neg_one (l : LightSource) (hdir : Vec3.norm l.direction ≠ 0) :
    -1 ≤ (lightDir l).x ∧ -1 ≤ (lightDir l).y ∧ -1 ≤ (lightDir l).z := by
  have hpos : 0 < Vec3.norm l.direction := lt_of_le_of_ne (norm_nonneg _) (Ne.symm hdir)
  obtain ⟨hx, hy, hz⟩ := abs_comp_le_norm l.direction
  simp only [lightDir, Vec3.divs]
  refine ⟨?_, ?_, ?_⟩
  · rw [le_div_iff hpos]
    have := abs_le.mp hx
    linarith
  · rw [le_div_iff hpos]
    have := abs_le.mp hy
    linarith
  · rw [le_div_iff hpos]
    have := abs_le.mp hz
    linarith

/-- With a nonzero light direction, components of the Blinn-Phong half
vector are nonnegative. -/
theorem w_h_spec_nonneg (l : LightSource) (hdir : Vec3.norm l.direction ≠ 0) :
    0 ≤ (w_h_spec l).x ∧ 0 ≤ (w_h_spec l).y ∧ 0 ≤ (w_h_spec l).z := by
  obtain ⟨hx, hy, hz⟩ := lightDir_ge_neg_one l hdir
  have hxc : (w_h_spec l).x
      = ((lightDir l).x + 1) / (2 * Vec3.norm (Vec3.add (lightDir l) out_dir)) := rfl
  have hyc : (w_h_spec l).y
      = ((lightDir l).y + 1) / (2 * Vec3.norm (Vec3.add (lightDir l) out_dir)) := rfl
  have hzc : (w_h_spec l).z
      = ((lightDir l).z + 1) / (2 * Vec3.norm (Vec3.add (lightDir l) out_dir)) := rfl
  have hden : 0 ≤ 2 * Vec3.norm (Vec3.add (lightDir l) out_dir) :=
    mul_nonneg (by norm_num) (norm_nonneg _)
  exact ⟨hxc ▸ div_nonneg (by linarith) hden, hyc ▸ div_nonneg (by linarith) hden,
    hzc ▸ div_nonneg (by linarith) hden⟩

/-- The dot product of componentwise nonnegative vectors is nonnegative. -/
theorem dot_nonneg (a b : Vec3) (hax : 0 ≤ a.x) (hay : 0 ≤ a.y) (haz : 0 ≤ a.z)
    (hbx : 0 ≤ b.x) (hby : 0 ≤ b.y) (hbz : 0 ≤ b.z) : 0 ≤ Vec3.dot a b := by
  simp only [Vec3.dot]
  exact add_nonneg (add_nonneg (mul_nonneg hax hbx) (mul_nonneg hay hby))
    (mul_nonneg haz hbz)

/-- Cauchy-Schwarz for the three dimensional dot product. -/
theorem dot_sq_le (a b : Vec3) :
    (Vec3.dot a b) ^ 2 ≤ (Vec3.norm a) ^ 2 * (Vec3.norm b) ^ 2 := by
  have ha : (Vec3.norm a) ^ 2 = a.x ^ 2 + a.y ^ 2 + a.z ^ 2 := by
    simp only [Vec3.norm]
    exact Real.sq_sqrt (by positivity)
  have hb : (Vec3.norm b) ^ 2 = b.x ^ 2 + b.y ^ 2 + b.z ^ 2 := by
    simp only [Vec3.norm]
    exact Real.sq_sqrt (by positivity)
  rw [ha, hb]
  simp only [Vec3.dot]
  nlinarith [sq_nonneg (a.x * b.y - a.y * b.x), sq_nonneg (a.x * b.z - a.z * b.x),
    sq_nonneg (a.y * b.z - a.z * b.y)]

/-- The microfacet distribution denominator is positive for positive
roughness and a dot product of magnitude at most one. -/
theorem Ddenom_pos (alpha p : ℝ) (halpha : 0 < alpha) (hp : p ^ 2 ≤ 1) :
    0 < 1 + p ^ 2 * (alpha ^ 2 - 1) := by
  rcases le_or_lt 1 (alpha ^ 2) with h | h
  · nlinarith [sq_nonneg p]
  · nlinarith [mul_nonneg (sub_nonneg.mpr hp) (sub_nonneg.mpr h.le), mul_pos halpha halpha]

/-- C3 counterexample: a zero light direction is normalized by dividing
by its zero norm with no substitution (src line 74), so the diffuse
shader computation degenerates (numpy propagates NaN to every output
pixel): the unguarded division site refutes the claim that every zero
norm is replaced by 1. -/
theorem c3_counterexample :
    ¬ shadeDefined ⟨⟨0, 0, 0⟩, ⟨255, 255, 255⟩, 1.413⟩ := by
  simp [shadeDefined, Vec3.norm]

/-- C3 as the code has it: the raw-normal norm and the two outer
microfacet denominators are guarded, but the light direction norm and
the G1 denominators are not.  Under a nonzero light direction,
nonnegative raw channels, nonnegative shininess, positive alpha and
nonvanishing G1 denominators, every division and power site of the
three shaders is nondegenerate, so no NaN or Inf reaches the output. -/
theorem c3_defined (sh alpha : ℝ) (l : LightSource) (raw : Vec3)
    (hdir : Vec3.norm l.direction ≠ 0)
    (hrx : 0 ≤ raw.x) (hry : 0 ≤ raw.y) (hrz : 0 ≤ raw.z)
    (hsh : 0 ≤ sh) (halpha : 0 < alpha)
    (hgi : Vec3.dot (normalizeGuard raw) (lightDir l) * (1 - alpha * Real.sqrt (2 / Real.pi))
      + alpha * Real.sqrt (2 / Real.pi) ≠ 0)
    (hgo : Vec3.dot (normalizeGuard raw) out_dir * (1 - alpha * Real.sqrt (2 / Real.pi))
      + alpha * Real.sqrt (2 / Real.pi) ≠ 0) :
    shadeDefined l ∧ specularDefined sh l raw ∧ microDefined alpha l raw := by
  have hunit : Vec3.norm (lightDir l) = 1 := by
    rw [lightDir, norm_divs l.direction (Vec3.norm l.direction) (norm_nonneg _),
      div_self hdir]
  have hsum : Vec3.norm (Vec3.add (lightDir l) out_dir) ≠ 0 := by
    intro h
    rw [norm_eq_zero_iff] at h
    have hx := congrArg Vec3.x h
    have hy := congrArg Vec3.y h
    have hz := congrArg Vec3.z h
    simp [Vec3.add, out_dir] at hx hy hz
    have hx1 : (lightDir l).x = -1 := by linarith
    have hy1 : (lightDir l).y = -1 := by linarith
    have hz1 : (lightDir l).z = -1 := by linarith
    have h3 : Vec3.norm (lightDir l) = Real.sqrt 3 := by
      simp only [Vec3.norm, hx1, hy1, hz1]
      norm_num
    rw [hunit] at h3
    have hsq : (Real.sqrt 3) ^ 2 = 3 := Real.sq_sqrt (by norm_num)
    rw [← h3] at hsq
    norm_num at hsq
  obtain ⟨hg1, hg2, hg3⟩ := guard_nonneg raw hrx hry hrz
  have hpow : powDefined (Vec3.dot (normalizeGuard raw) (w_h_spec l)) sh := by
    obtain ⟨hw1, hw2, hw3⟩ := w_h_spec_nonneg l hdir
    have hd0 : 0 ≤ Vec3.dot (normalizeGuard raw) (w_h_spec l) :=
      dot_nonneg _ _ hg1 hg2 hg3 hw1 hw2 hw3
    rcases lt_or_eq_of_le hd0 with h | h
    · exact Or.inl h
    · exact Or.inr (Or.inl ⟨h.symm, hsh⟩)
  refine ⟨hdir, ⟨hdir, mul_ne_zero two_ne_zero hsum, hpow⟩, hdir, hsum, ?_, hgi, hgo⟩
  have hwh_unit : Vec3.norm (w_h_micro l) = 1 := by
    rw [w_h_micro, norm_divs _ _ (norm_nonneg _), div_self hsum]
  have hn_le : Vec3.norm (normalizeGuard raw) ≤ 1 := normGuard_le_one raw
  have hp2 : (Vec3.dot (normalizeGuard raw) (w_h_micro l)) ^ 2 ≤ 1 := by
    have hcs := dot_sq_le (normalizeGuard raw) (w_h_micro l)
    rw [hwh_unit] at hcs
    have h0 : 0 ≤ Vec3.norm (normalizeGuard raw) := norm_nonneg _
    nlinarith [hn_le, h0]
  have hden := Ddenom_pos alpha _ halpha hp2
  exact mul_ne_zero Real.pi_ne_zero (pow_ne_zero 2 hden.ne')

/-- C3 witness: with a vertical light, a bright pixel, shininess 0.7 and
the roughness making k equal 1, all definedness conditions hold. -/
theorem c3_defined_witness :
    shadeDefined ⟨⟨0, 0, 1⟩, ⟨255, 255, 255⟩, 1.413⟩ ∧
    specularDefined 0.7 ⟨⟨0, 0, 1⟩, ⟨255, 255, 255⟩, 1.413⟩ ⟨128, 128, 255⟩ ∧
    microDefined (Real.sqrt (Real.pi / 2)) ⟨⟨0, 0, 1⟩, ⟨255, 255, 255⟩, 1.413⟩
      ⟨128, 128, 255⟩ := by
  have hnl : Vec3.norm ⟨0, 0, 1⟩ = 1 := by
    simp only [Vec3.norm]
    rw [show (0 : ℝ) ^ 2 + 0 ^ 2 + 1 ^ 2 = 1 by norm_num]
    exact Real.sqrt_one
  have hk : Real.sqrt (Real.pi / 2) * Real.sqrt (2 / Real.pi) = 1 := by
    rw [← Real.sqrt_mul (by positivity)]
    rw [show Real.pi / 2 * (2 / Real.pi) = 1 from by
      field_simp]
    exact Real.sqrt_one
  exact c3_defined 0.7 (Real.sqrt (Real.pi / 2)) ⟨⟨0, 0, 1⟩, ⟨255, 255, 255⟩, 1.413⟩
    ⟨128, 128, 255⟩ (by rw [hnl]; norm_num) (by norm_num) (by norm_num) (by norm_num)
    (by norm_num) (Real.sqrt_pos.mpr (by positivity)) (by rw [hk]; simp)
    (by rw [hk]; simp)

/-- The upper clamp bounds every channel by 255. -/
theorem clamp255_le (v : ℝ) : clamp255 v ≤ 255 := by
  rw [clamp255]
  split
  · exact le_refl _
  · linarith [not_lt.mp (by assumption : ¬ v > 255)]

/-- The upper clamp preserves nonnegativity. -/
theorem clamp255_nonneg (v : ℝ) (h : 0 ≤ v) : 0 ≤ clamp255 v := by
  rw [clamp255]
  split
  · norm_num
  · exact h

/-- The mask preserves an upper bound of 255. -/
theorem maskChannel_le (r v : ℝ) (h : v ≤ 255) : maskChannel r v ≤ 255 := by
  rw [maskChannel]
  split
  · norm_num
  · exact h

/-- The mask preserves nonnegativity. -/
theorem maskChannel_nonneg (r v : ℝ) (h : 0 ≤ v) : 0 ≤ maskChannel r v := by
  rw [maskChannel]
  split
  · norm_num
  · exact h

/-- The pre-clamp diffuse output is componentwise nonnegative for
nonnegative intensity, diffuse coefficient and albedo. -/
theorem shadePixelPre_nonneg (m : Material) (l : LightSource) (raw : Vec3)
    (hint : 0 ≤ l.intensity) (hdc : 0 ≤ m.diffuse_coef)
    (hax : 0 ≤ m.albedo.x) (hay : 0 ≤ m.albedo.y) (haz : 0 ≤ m.albedo.z) :
    0 ≤ (shadePixelPre m l raw).x ∧ 0 ≤ (shadePixelPre m l raw).y ∧
    0 ≤ (shadePixelPre m l raw).z := by
  have hc : 0 ≤ l.intensity * max (Vec3.dot (normalizeGuard raw) (lightDir l)) 0 :=
    mul_nonneg hint (le_max_right _ _)
  simp only [shadePixelPre, Vec3.smul, f_d, Vec3.divs]
  exact ⟨mul_nonneg hc (div_nonneg (mul_nonneg hdc hax) Real.pi_pos.le),
    mul_nonneg hc (div_nonneg (mul_nonneg hdc hay) Real.pi_pos.le),
    mul_nonneg hc (div_nonneg (mul_nonneg hdc haz) Real.pi_pos.le)⟩

/-- The pre-clamp Blinn-Phong output is componentwise nonnegative for
valid inputs: the power base n dot w_h is nonnegative because raw image
channels and half-vector components are. -/
theorem specularPixelPre_nonneg (m : Material) (sc sh : ℝ) (l : LightSource) (raw : Vec3)
    (hint : 0 ≤ l.intensity) (hdc : 0 ≤ m.diffuse_coef)
    (hax : 0 ≤ m.albedo.x) (hay : 0 ≤ m.albedo.y) (haz : 0 ≤ m.albedo.z)
    (hsc : 0 ≤ sc) (hrx : 0 ≤ raw.x) (hry : 0 ≤ raw.y) (hrz : 0 ≤ raw.z)
    (hdir : Vec3.norm l.direction ≠ 0) :
    0 ≤ (specularPixelPre m sc sh l raw).x ∧ 0 ≤ (specularPixelPre m sc sh l raw).y ∧
    0 ≤ (specularPixelPre m sc sh l raw).z := by
  have hc : 0 ≤ l.intensity * max (Vec3.dot (normalizeGuard raw) (lightDir l)) 0 :=
    mul_nonneg hint (le_max_right _ _)
  obtain ⟨hg1, hg2, hg3⟩ := guard_nonneg raw hrx hry hrz
  obtain ⟨hw1, hw2, hw3⟩ := w_h_spec_nonneg l hdir
  have hbase : 0 ≤ Vec3.dot (normalizeGuard raw) (w_h_spec l) :=
    dot_nonneg _ _ hg1 hg2 hg3 hw1 hw2 hw3
  have hfs : 0 ≤ sc * (Vec3.dot (normalizeGuard raw) (w_h_spec l)) ^ sh :=
    mul_nonneg hsc (Real.rpow_nonneg hbase sh)
  simp only [specularPixelPre, Vec3.smul, Vec3.adds, f_d, Vec3.divs]
  exact ⟨mul_nonneg hc (add_nonneg (div_nonneg (mul_nonneg hdc hax) Real.pi_pos.le) hfs),
    mul_nonneg hc (add_nonneg (div_nonneg (mul_nonneg hdc hay) Real.pi_pos.le) hfs),
    mul_nonneg hc (add_nonneg (div_nonneg (mul_nonneg hdc haz) Real.pi_pos.le) hfs)⟩

/-- C2 as the code has it: after the clamp and before the uint8
truncation, every channel of shade and specular_shade lies in [0,255]
for valid inputs (nonnegative intensity, coefficients, albedo and raw
channels, nonzero light direction); for micro_facette_shader only the
upper bound 255 holds, since its specular term can be negative and the
source has no lower clamp. -/
theorem c2_bounds (m : Material) (sc sh alpha f_0 : ℝ) (l : LightSource) (raw : Vec3)
    (hint : 0 ≤ l.intensity) (hdc : 0 ≤ m.diffuse_coef)
    (hax : 0 ≤ m.albedo.x) (hay : 0 ≤ m.albedo.y) (haz : 0 ≤ m.albedo.z)
    (hsc : 0 ≤ sc) (hrx : 0 ≤ raw.x) (hry : 0 ≤ raw.y) (hrz : 0 ≤ raw.z)
    (hdir : Vec3.norm l.direction ≠ 0) :
    (0 ≤ (shadePixel m l raw).x ∧ (shadePixel m l raw).x ≤ 255) ∧
    (0 ≤ (shadePixel m l raw).y ∧ (shadePixel m l raw).y ≤ 255) ∧
    (0 ≤ (shadePixel m l raw).z ∧ (shadePixel m l raw).z ≤ 255) ∧
    (0 ≤ (specularPixel m sc sh l raw).x ∧ (specularPixel m sc sh l raw).x ≤ 255) ∧
    (0 ≤ (specularPixel m sc sh l raw).y ∧ (specularPixel m sc sh l raw).y ≤ 255) ∧
    (0 ≤ (specularPixel m sc sh l raw).z ∧ (specularPixel m sc sh l raw).z ≤ 255) ∧
    (microPixel m alpha f_0 l raw).x ≤ 255 ∧
    (microPixel m alpha f_0 l raw).y ≤ 255 ∧
    (microPixel m alpha f_0 l raw).z ≤ 255 := by
  obtain ⟨hs1, hs2, hs3⟩ := shadePixelPre_nonneg m l raw hint hdc hax hay haz
  obtain ⟨hp1, hp2, hp3⟩ :=
    specularPixelPre_nonneg m sc sh l raw hint hdc hax hay haz hsc hrx hry hrz hdir
  refine ⟨⟨?_, ?_⟩, ⟨?_, ?_⟩, ⟨?_, ?_⟩, ⟨?_, ?_⟩, ⟨?_, ?_⟩, ⟨?_, ?_⟩, ?_, ?_, ?_⟩
  · exact maskChannel_nonneg _ _ (clamp255_nonneg _ hs1)
  · exact maskChannel_le _ _ (clamp255_le _)
  · exact maskChannel_nonneg _ _ (clamp255_nonneg _ hs2)
  · exact maskChannel_le _ _ (clamp255_le _)
  · exact maskChannel_nonneg _ _ (clamp255_nonneg _ hs3)
  · exact maskChannel_le _ _ (clamp255_le _)
  · exact maskChannel_nonneg _ _ (clamp255_nonneg _ hp1)
  · exact maskChannel_le _ _ (clamp255_le _)
  · exact maskChannel_nonneg _ _ (clamp255_nonneg _ hp2)
  · exact maskChannel_le _ _ (clamp255_le _)
  · exact maskChannel_nonneg _ _ (clamp255_nonneg _ hp3)
  · exact maskChannel_le _ _ (clamp255_le _)
  · exact clamp255_le _
  · exact clamp255_le _
  · exact clamp255_le _

/-- C2 witness: the bounds at a bright pixel with the sample material of
the repository and a vertical light. -/
theorem c2_bounds_witness :
    (0 ≤ (shadePixel ⟨⟨0, 191, 255⟩, 4.5, none, none⟩ ⟨⟨0, 0, 1⟩, ⟨255, 255, 255⟩, 1.413⟩
        ⟨128, 128, 255⟩).x ∧
      (shadePixel ⟨⟨0, 191, 255⟩, 4.5, none, none⟩ ⟨⟨0, 0, 1⟩, ⟨255, 255, 255⟩, 1.413⟩
        ⟨128, 128, 255⟩).x ≤ 255) ∧
    (0 ≤ (shadePixel ⟨⟨0, 191, 255⟩, 4.5, none, none⟩ ⟨⟨0, 0, 1⟩, ⟨255, 255, 255⟩, 1.413⟩
        ⟨128, 128, 255⟩).y ∧
      (shadePixel ⟨⟨0, 191, 255⟩, 4.5, none, none⟩ ⟨⟨0, 0, 1⟩, ⟨255, 255, 255⟩, 1.413⟩
        ⟨128, 128, 255⟩).y ≤ 255) ∧
    (0 ≤ (shadePixel ⟨⟨0, 191, 255⟩, 4.5, none, none⟩ ⟨⟨0, 0, 1⟩, ⟨255, 255, 255⟩, 1.413⟩
        ⟨128, 128, 255⟩).z ∧
      (shadePixel ⟨⟨0, 191, 255⟩, 4.5, none, none⟩ ⟨⟨0, 0, 1⟩, ⟨255, 255, 255⟩, 1.413⟩
        ⟨128, 128, 255⟩).z ≤ 255) ∧
    (0 ≤ (specularPixel ⟨⟨0, 191, 255⟩, 4.5, none, none⟩ 255 0.7
        ⟨⟨0, 0, 1⟩, ⟨255, 255, 255⟩, 1.413⟩ ⟨128, 128, 255⟩).x ∧
      (specularPixel ⟨⟨0, 191, 255⟩, 4.5, none, none⟩ 255 0.7
        ⟨⟨0, 0, 1⟩, ⟨255, 255, 255⟩, 1.413⟩ ⟨128, 128, 255⟩).x ≤ 255) ∧
    (0 ≤ (specularPixel ⟨⟨0, 191, 255⟩, 4.5, none, none⟩ 255 0.7
        ⟨⟨0, 0, 1⟩, ⟨255, 255, 255⟩, 1.413⟩ ⟨128, 128, 255⟩).y ∧
      (specularPixel ⟨⟨0, 191, 255⟩, 4.5, none, none⟩ 255 0.7
        ⟨⟨0, 0, 1⟩, ⟨255, 255, 255⟩, 1.413⟩ ⟨128, 128, 255⟩).y ≤ 255) ∧
    (0 ≤ (specularPixel ⟨⟨0, 191, 255⟩, 4.5, none, none⟩ 255 0.7
        ⟨⟨0, 0, 1⟩, ⟨255, 255, 255⟩, 1.413⟩ ⟨128, 128, 255⟩).z ∧
      (specularPixel ⟨⟨0, 191, 255⟩, 4.5, none, none⟩ 255 0.7
        ⟨⟨0, 0, 1⟩, ⟨255, 255, 255⟩, 1.413⟩ ⟨128, 128, 255⟩).z ≤ 255) ∧
    (microPixel ⟨⟨0, 191, 255⟩, 4.5, none, none⟩ 2.965 70
      ⟨⟨0, 0, 1⟩, ⟨255, 255, 255⟩, 1.413⟩ ⟨128, 128, 255⟩).x ≤ 255 ∧
    (microPixel ⟨⟨0, 191, 255⟩, 4.5, none, none⟩ 2.965 70
      ⟨⟨0, 0, 1⟩, ⟨255, 255, 255⟩, 1.413⟩ ⟨128, 128, 255⟩).y ≤ 255 ∧
    (microPixel ⟨⟨0, 191, 255⟩, 4.5, none, none⟩ 2.965 70
      ⟨⟨0, 0, 1⟩, ⟨255, 255, 255⟩, 1.413⟩ ⟨128, 128, 255⟩).z ≤ 255 := by
  have hnl : Vec3.norm ⟨0, 0, 1⟩ = 1 := by
    simp only [Vec3.norm]
    rw [show (0 : ℝ) ^ 2 + 0 ^ 2 + 1 ^ 2 = 1 by norm_num]
    exact Real.sqrt_one
  exact c2_bounds ⟨⟨0, 191, 255⟩, 4.5, none, none⟩ 255 0.7 2.965 70
    ⟨⟨0, 0, 1⟩, ⟨255, 255, 255⟩, 1.413⟩ ⟨128, 128, 255⟩ (by norm_num) (by norm_num)
    (by norm_num) (by norm_num) (by norm_num) (by norm_num) (by norm_num) (by norm_num)
    (by norm_num) (by rw [hnl]; norm_num)

/-- C2 counterexample: with the all-bright pixel (255,255,255), light
direction (1,1,1), unit intensity, zero diffuse coefficient, Fresnel
f_0 = 1 and roughness alpha = 2 sqrt(2 pi) (so that k = 4), the geometry
factor G1 at the view direction is sqrt 3 / (4 - 3 sqrt 3) < 0, making
the microfacet specular term and hence the whole post-clamp output
channel negative: the first output channel of micro_facette_shader is
below 0, violating the claimed [0,255] interval. -/
theorem c2_counterexample :
    (microPixel ⟨⟨0, 0, 0⟩, 0, none, none⟩ (2 * Real.sqrt (2 * Real.pi)) 1
      ⟨⟨1, 1, 1⟩, ⟨255, 255, 255⟩, 1⟩ ⟨255, 255, 255⟩).x < 0 := by
  have hs0 : (0 : ℝ) < Real.sqrt 3 := Real.sqrt_pos.mpr (by norm_num)
  have hs2 : Real.sqrt 3 * Real.sqrt 3 = 3 := Real.mul_self_sqrt (by norm_num)
  have hpi : (0 : ℝ) < Real.pi := Real.pi_pos
  have hn : normalizeGuard ⟨255, 255, 255⟩
      = ⟨1 / Real.sqrt 3, 1 / Real.sqrt 3, 1 / Real.sqrt 3⟩ :=
    normalizeGuard_diag 255 (by norm_num)
  have hld : lightDir ⟨⟨1, 1, 1⟩, ⟨255, 255, 255⟩, 1⟩
      = ⟨1 / Real.sqrt 3, 1 / Real.sqrt 3, 1 / Real.sqrt 3⟩ := by
    show Vec3.divs ⟨1, 1, 1⟩ (Vec3.norm ⟨1, 1, 1⟩) = _
    rw [norm_diag 1 (by norm_num), one_mul]
    simp only [Vec3.divs]
  have hwh : w_h_micro ⟨⟨1, 1, 1⟩, ⟨255, 255, 255⟩, 1⟩
      = ⟨1 / Real.sqrt 3, 1 / Real.sqrt 3, 1 / Real.sqrt 3⟩ := by
    show Vec3.divs (Vec3.add (lightDir ⟨⟨1, 1, 1⟩, ⟨255, 255, 255⟩, 1⟩) out_dir)
      (Vec3.norm (Vec3.add (lightDir ⟨⟨1, 1, 1⟩, ⟨255, 255, 255⟩, 1⟩) out_dir)) = _
    rw [hld]
    have haddv : Vec3.add ⟨1 / Real.sqrt 3, 1 / Real.sqrt 3, 1 / Real.sqrt 3⟩ out_dir
        = ⟨1 / Real.sqrt 3 + 1, 1 / Real.sqrt 3 + 1, 1 / Real.sqrt 3 + 1⟩ := by
      simp only [Vec3.add, out_dir]
    rw [haddv, norm_diag _ (by positivity)]
    simp only [Vec3.divs, Vec3.mk.injEq]
    have h1 : (1 / Real.sqrt 3 + 1) / ((1 / Real.sqrt 3 + 1) * Real.sqrt 3)
        = 1 / Real.sqrt 3 := by
      rw [← div_div, div_self (by positivity)]
    exact ⟨h1, h1, h1⟩
  have hdot1 : Vec3.dot ⟨1 / Real.sqrt 3, 1 / Real.sqrt 3, 1 / Real.sqrt 3⟩
      ⟨1 / Real.sqrt 3, 1 / Real.sqrt 3, 1 / Real.sqrt 3⟩ = 1 := by
    simp only [Vec3.dot]
    field_simp
    linarith [hs2]
  have hdots : Vec3.dot ⟨1 / Real.sqrt 3, 1 / Real.sqrt 3, 1 / Real.sqrt 3⟩ out_dir
      = Real.sqrt 3 := by
    simp only [Vec3.dot, out_dir]
    field_simp
    linarith [hs2]
  have hk : 2 * Real.sqrt (2 * Real.pi) * Real.sqrt (2 / Real.pi) = 4 := by
    rw [mul_assoc, ← Real.sqrt_mul (by positivity)]
    rw [show 2 * Real.pi * (2 / Real.pi) = 4 from by field_simp; ring]
    rw [show (4 : ℝ) = 2 ^ 2 from by norm_num, Real.sqrt_sq (by norm_num)]
    norm_num
  have halpha2 : (2 * Real.sqrt (2 * Real.pi)) ^ 2 = 8 * Real.pi := by
    rw [mul_pow, Real.sq_sqrt (by positivity)]
    ring
  have hG1i : G1 (2 * Real.sqrt (2 * Real.pi))
      ⟨1 / Real.sqrt 3, 1 / Real.sqrt 3, 1 / Real.sqrt 3⟩
      ⟨1 / Real.sqrt 3, 1 / Real.sqrt 3, 1 / Real.sqrt 3⟩ = 1 := by
    rw [G1, hdot1, hk]
    norm_num
  have hG1o : G1 (2 * Real.sqrt (2 * Real.pi))
      ⟨1 / Real.sqrt 3, 1 / Real.sqrt 3, 1 / Real.sqrt 3⟩ out_dir
      = Real.sqrt 3 / (4 - 3 * Real.sqrt 3) := by
    rw [G1, hdots, hk]
    rw [show Real.sqrt 3 * (1 - 4) + 4 = 4 - 3 * Real.sqrt 3 from by ring]
  have hD : D (2 * Real.sqrt (2 * Real.pi))
      ⟨1 / Real.sqrt 3, 1 / Real.sqrt 3, 1 / Real.sqrt 3⟩
      ⟨1 / Real.sqrt 3, 1 / Real.sqrt 3, 1 / Real.sqrt 3⟩ = 1 / (8 * Real.pi ^ 2) := by
    rw [D, hdot1, halpha2]
    rw [show (1 : ℝ) + 1 ^ 2 * (8 * Real.pi - 1) = 8 * Real.pi from by ring]
    field_simp
    ring
  have hF : F ⟨1 / Real.sqrt 3, 1 / Real.sqrt 3, 1 / Real.sqrt 3⟩
      ⟨1 / Real.sqrt 3, 1 / Real.sqrt 3, 1 / Real.sqrt 3⟩ 1 = 1 := by
    rw [F]
    ring
  have hps1 : prodSub (1 : ℝ) = 1 := by
    rw [prodSub, if_neg one_ne_zero]
  have hpss : prodSub (Real.sqrt 3) = Real.sqrt 3 := by
    rw [prodSub, if_neg hs0.ne']
  have hdenom_neg : 4 - 3 * Real.sqrt 3 < 0 := by
    nlinarith [hs2, hs0]
  have hfd : f_d ⟨⟨0, 0, 0⟩, 0, none, none⟩ = ⟨0, 0, 0⟩ := by
    simp only [f_d, Vec3.smul, Vec3.divs]
    norm_num
  have hpre : (microPixelPre ⟨⟨0, 0, 0⟩, 0, none, none⟩ (2 * Real.sqrt (2 * Real.pi)) 1
      ⟨⟨1, 1, 1⟩, ⟨255, 255, 255⟩, 1⟩ ⟨255, 255, 255⟩).x
      = 1 / (8 * Real.pi ^ 2) * (Real.sqrt 3 / (4 - 3 * Real.sqrt 3)) / (4 * Real.sqrt 3) := by
    simp only [microPixelPre, hn, hld, hwh, hdot1, hdots, G, hG1i, hG1o, hD, hF, hps1,
      hpss, hfd, Vec3.smul, Vec3.adds]
    rw [max_eq_left (by norm_num : (0 : ℝ) ≤ 1)]
    ring
  have hval : 1 / (8 * Real.pi ^ 2) * (Real.sqrt 3 / (4 - 3 * Real.sqrt 3))
      / (4 * Real.sqrt 3) < 0 := by
    apply div_neg_of_neg_of_pos
    · apply mul_neg_of_pos_of_neg
      · positivity
      · exact div_neg_of_pos_of_neg hs0 hdenom_neg
    · positivity
  have hprex : (microPixelPre ⟨⟨0, 0, 0⟩, 0, none, none⟩ (2 * Real.sqrt (2 * Real.pi)) 1
      ⟨⟨1, 1, 1⟩, ⟨255, 255, 255⟩, 1⟩ ⟨255, 255, 255⟩).x < 0 := by
    rw [hpre]
    exact hval
  show clamp255 (maskChannel (255 : ℝ)
    (microPixelPre ⟨⟨0, 0, 0⟩, 0, none, none⟩ (2 * Real.sqrt (2 * Real.pi)) 1
      ⟨⟨1, 1, 1⟩, ⟨255, 255, 255⟩, 1⟩ ⟨255, 255, 255⟩).x) < 0
  rw [maskChannel, if_neg (by norm_num : ¬ (255 : ℝ) < 5)]
  rw [clamp255, if_neg (by linarith : ¬ (microPixelPre ⟨⟨0, 0, 0⟩, 0, none, none⟩
    (2 * Real.sqrt (2 * Real.pi)) 1 ⟨⟨1, 1, 1⟩, ⟨255, 255, 255⟩, 1⟩
    ⟨255, 255, 255⟩).x > 255)]
  exact hprex

end NPM
